import Mathlib

/-!
Verification of the Confluence HTML export scripts.

The repository has two source files:
* `export_confluence_html.py` — thread-pool based exporter (`ConfluenceExporter`);
* `export_confluence_html_async.py` — asyncio based exporter (`ConfluenceAsyncExporter`).

This file gives a shallow embedding of the parts of both scripts that the
verified claims are about: the per-space export task (cache check, export-URL
request, download with retry/backoff in the async variant, single-shot download
in the thread variant), the space filtering of `export_all_spaces`, the
outcome aggregation loops, the cache fingerprint, and the filename
sanitisation.  Remote behaviour (HTTP responses, network errors) is supplied
to the embedded functions as explicit oracle arguments, one entry per request
the code would make.
-/

namespace ConfluenceExport

/-- One discovered space, as consumed by the scripts.  In Python a space is a
dict; `space['key']` and `space['type']` are accessed unconditionally while
`space.get('name', space_key)` and `space.get('status', '')` have defaults,
so `name` and `status` are optional here. -/
structure Space where
  key : String
  name : Option String
  type : String
  status : Option String
deriving DecidableEq

/-- Result triple returned by `export_space` in both scripts:
`(成功标志, 空间键, 导出文件路径)` = `(success flag, space key, file path or None)`. -/
structure Outcome where
  success : Bool
  key : String
  path : Option String
deriving DecidableEq

/-! ## Cache store

`self.export_cache` is a Python dict persisted as JSON.  We model it as an
association list; `cacheInsert` mirrors dict assignment (replace in place or
append) and `cacheLookup` mirrors `cache_key in self.export_cache` /
`self.export_cache[cache_key]`. -/

/-- Lookup in the in-memory export cache (Python `dict` access): the value
bound to the key, if present. -/
def cacheLookup : List (String × String) → String → Option String
  | [], _ => none
  | p :: rest, k => if p.1 = k then some p.2 else cacheLookup rest k

/-- Insertion into the in-memory export cache (Python `dict` assignment:
overwrite the existing binding in place, else append). -/
def cacheInsert : List (String × String) → String → String → List (String × String)
  | [], k, v => [(k, v)]
  | p :: rest, k, v => if p.1 = k then (k, v) :: rest else p :: cacheInsert rest k v

/-! ## Cache fingerprint

Both scripts compute
`cache_key = f"{space_key}_{int(time.time() / (3600 * 24))}"`.
`time.time()` is the current unix time; for a non-negative time the float
division followed by `int` truncation equals natural-number division.
`natDigits` embeds Python's decimal rendering of a non-negative `int`. -/

/-- Decimal digit characters of a natural number, most significant first,
as Python's `str`/f-string formatting of a non-negative `int` produces. -/
def natDigits (n : Nat) : List Char :=
  if n < 10 then [Char.ofNat (48 + n)]
  else natDigits (n / 10) ++ [Char.ofNat (48 + n % 10)]
decreasing_by
  exact Nat.div_lt_self (by omega) (by omega)

/-- Cache fingerprint: `f"{space_key}_{int(time.time() / (3600 * 24))}"`,
with `now` the current unix time in seconds. -/
def cacheKey (spaceKey : String) (now : Nat) : String :=
  spaceKey ++ "_" ++ String.mk (natDigits (now / (3600 * 24)))

/-! ## Filename sanitisation

Both scripts compute
`safe_name = "".join([c if c.isalnum() or c in "._- " else "_" for c in space_name])`
and `output_file = self.output_dir / f"{space_key}_{safe_name}.html.zip"`. -/

/-- Python's `str.isalnum` on one character.  Python's predicate is
Unicode-aware; it is modelled here exactly for code points below `0x100`
(ASCII plus the Latin-1 Supplement, where the alphanumerics are
`ª ² ³ µ ¹ º ¼ ½ ¾`, `À`–`Ö`, `Ø`–`ö` and `ø`–`ÿ`), which is the only domain
the theorems below evaluate it on; code points at or above `0x100` are not
modelled and return `false`. -/
def pyIsAlnum (c : Char) : Bool :=
  let v := c.toNat
  if v < 0x80 then c.isAlphanum
  else if v < 0x100 then
    v == 0xAA || v == 0xB2 || v == 0xB3 || v == 0xB5 || v == 0xB9 || v == 0xBA ||
    (0xBC ≤ v && v ≤ 0xBE) || (0xC0 ≤ v && v ≤ 0xD6) ||
    (0xD8 ≤ v && v ≤ 0xF6) || (0xF8 ≤ v && v ≤ 0xFF)
  else false

/-- One character of the list comprehension:
`c if c.isalnum() or c in "._- " else "_"`. -/
def sanitizeChar (c : Char) : Char :=
  if pyIsAlnum c || c == '.' || c == '_' || c == '-' || c == ' ' then c else '_'

/-- The `safe_name` computed from the space name. -/
def sanitizeName (name : String) : String :=
  String.mk (name.data.map sanitizeChar)

/-- Full output path `self.output_dir / f"{space_key}_{safe_name}.html.zip"`. -/
def outputFileName (outputDir spaceKey name : String) : String :=
  outputDir ++ "/" ++ spaceKey ++ "_" ++ sanitizeName name ++ ".html.zip"

/-- Character class `[A-Za-z0-9._- ]` named by the claim about sanitisation
(ASCII alphanumerics, dot, underscore, hyphen, space).  This definition
follows the claim's words and is compared against the code's `sanitizeChar`. -/
def asciiClassChar (c : Char) : Bool :=
  c.isAlphanum || c == '.' || c == '_' || c == '-' || c == ' '

/-! ## Download attempts

The remote end of one streaming GET is modelled as an oracle value: either a
network-level error / timeout (raised as `aiohttp.ClientError` or
`asyncio.TimeoutError` in the async script, `requests` exceptions in the
thread script), or a response with an HTTP status, an optional declared
`content-length`, and the number of body bytes the stream delivers before it
ends cleanly.  `int(response.headers.get('content-length', 0))` makes an
absent header behave as size `0`. -/
inductive Attempt where
  | err
  | ok (status : Nat) (declared : Option Nat) (delivered : Nat)
deriving DecidableEq

/-- Classification of one attempt by the async download loop: a non-200
status is an attempt failure (line `if response.status != 200`), and a
delivered byte count short of a positive declared size is an attempt failure
(line `if total_size > 0 and downloaded < total_size`); a network error or
timeout is caught and counted as an attempt failure. -/
def attemptFails : Attempt → Bool
  | .err => true
  | .ok status declared delivered =>
    status != 200 || (0 < declared.getD 0 && delivered < declared.getD 0)

/-- Fixed attempt budget `max_retries = 3` of the async script. -/
def maxRetries : Nat := 3

/-- Result of the async download `while` loop: whether it ended in a clean
download, how many attempts it made, and the injected backoff waits (in
seconds, in order). -/
structure LoopResult where
  success : Bool
  attempts : Nat
  waits : List Nat
deriving DecidableEq

/-- The async download loop `while retry_count < max_retries`, driven by the
oracle trace (one entry per attempt the loop makes).  On an attempt failure
with `retry_count + 1 < max_retries` it sleeps `5 * (2 ** retry_count)`
seconds (after the increment, so `5 * 2 ^ (rc + 1)`) and retries; otherwise
it returns failure.  An exhausted trace ends the loop with failure; the
theorems below always supply traces covering every attempt made. -/
def downloadLoop : List Attempt → Nat → LoopResult
  | [], _ => ⟨false, 0, []⟩
  | a :: rest, retryCount =>
    if attemptFails a then
      if retryCount + 1 < maxRetries then
        let r := downloadLoop rest (retryCount + 1)
        ⟨r.success, r.attempts + 1, 5 * 2 ^ (retryCount + 1) :: r.waits⟩
      else ⟨false, 1, []⟩
    else ⟨true, 1, []⟩

/-- Everything observable about one run of `export_space`: the returned
triple, the in-memory cache after the call, how many `get_space_export`
calls and download GETs were issued, and the backoff waits slept. -/
structure TaskResult where
  outcome : Outcome
  cache : List (String × String)
  exportRequests : Nat
  downloadAttempts : Nat
  waits : List Nat
deriving DecidableEq

/-- `ConfluenceAsyncExporter.export_space` (async script, lines 93–195).
Arguments: the in-memory cache, the current unix time, the space dict, the
value returned by `self.confluence.get_space_export(space_key, 'html')`
(`none` models a falsy return), the response oracle for the download loop,
and the output directory.  Branches, in source order: cache hit returns the
cached path with no network call; a falsy export URL returns a failure
(`if not export_url`, true for `None` and for the empty string); otherwise
the download loop runs and on a clean download the cache is updated
(`self.export_cache[cache_key] = str(output_file)`) before returning
success. -/
def asyncExportSpace (cache : List (String × String)) (now : Nat) (space : Space)
    (exportUrl : Option String) (trace : List Attempt) (outputDir : String) : TaskResult :=
  let spaceKey := space.key
  let spaceName := space.name.getD spaceKey
  let ck := cacheKey spaceKey now
  match cacheLookup cache ck with
  | some p => ⟨⟨true, spaceKey, some p⟩, cache, 0, 0, []⟩
  | none =>
    match exportUrl with
    | none => ⟨⟨false, spaceKey, none⟩, cache, 1, 0, []⟩
    | some u =>
      if u = "" then ⟨⟨false, spaceKey, none⟩, cache, 1, 0, []⟩
      else
        let outputFile := outputFileName outputDir spaceKey spaceName
        let r := downloadLoop trace 0
        if r.success then
          ⟨⟨true, spaceKey, some outputFile⟩, cacheInsert cache ck outputFile, 1, r.attempts, r.waits⟩
        else
          ⟨⟨false, spaceKey, none⟩, cache, 1, r.attempts, r.waits⟩

/-- `ConfluenceExporter.export_space` (thread script, lines 89–137).  Same
oracle arguments as `asyncExportSpace`; the thread script issues exactly one
`requests.get` (no retry loop), consuming the first trace entry.  A raised
network error is caught by the surrounding `except` and returns failure; any
received response has its body streamed to disk and the function returns
success — the script checks neither the HTTP status nor the delivered byte
count against `content-length`.  An empty trace (no response to consume) is
modelled as failure and is never exercised by the theorems. -/
def syncExportSpace (cache : List (String × String)) (now : Nat) (space : Space)
    (exportUrl : Option String) (trace : List Attempt) (outputDir : String) : TaskResult :=
  let spaceKey := space.key
  let spaceName := space.name.getD spaceKey
  let ck := cacheKey spaceKey now
  match cacheLookup cache ck with
  | some p => ⟨⟨true, spaceKey, some p⟩, cache, 0, 0, []⟩
  | none =>
    match exportUrl with
    | none => ⟨⟨false, spaceKey, none⟩, cache, 1, 0, []⟩
    | some u =>
      if u = "" then ⟨⟨false, spaceKey, none⟩, cache, 1, 0, []⟩
      else
        match trace with
        | [] => ⟨⟨false, spaceKey, none⟩, cache, 1, 0, []⟩
        | .err :: _ => ⟨⟨false, spaceKey, none⟩, cache, 1, 1, []⟩
        | .ok _ _ _ :: _ =>
          let outputFile := outputFileName outputDir spaceKey spaceName
          ⟨⟨true, spaceKey, some outputFile⟩, cacheInsert cache ck outputFile, 1, 1, []⟩

/-! ## Space filtering in `export_all_spaces`

Both scripts filter the discovered inventory identically (thread script
lines 179–199, async script lines 239–259): Python's `if specific_spaces:`
is true for a non-`None`, non-empty list; in that case only membership of
`s['key']` in `set(specific_spaces)` is tested; otherwise the
personal/archived predicate filters run. -/

/-- Predicate-filter branch: skip `space['type'].lower() == 'personal'`
unless `include_personal`, skip `space.get('status', '').lower() ==
'archived'` unless `include_archived`. -/
def predicateFilter (allSpaces : List Space) (includePersonal includeArchived : Bool) :
    List Space :=
  allSpaces.filter (fun s =>
    !(s.type.toLower == "personal" && !includePersonal) &&
    !((s.status.getD "").toLower == "archived" && !includeArchived))

/-- The full filtering step producing `spaces_to_export`.  `specificSpaces =
none` models `specific_spaces=None`; `some []` is falsy in Python just like
`None`, so it also takes the predicate branch. -/
def filterSpaces (allSpaces : List Space) (includePersonal includeArchived : Bool)
    (specificSpaces : Option (List String)) : List Space :=
  match specificSpaces with
  | some keys =>
    if keys.isEmpty then predicateFilter allSpaces includePersonal includeArchived
    else allSpaces.filter (fun s => keys.contains s.key)
  | none => predicateFilter allSpaces includePersonal includeArchived

/-! ## Outcome aggregation

Both scripts drive the completed tasks in completion order and tally
`successful_exports` and `failed_spaces`.  A completed task is either a
returned `Outcome` or a raised exception (`none` here).  The thread script
(lines 217–227) records an exception as a failure under `space['key']`; the
async script (lines 280–290) only logs it — nothing is appended. -/

/-- One iteration of the thread script's result loop: `future.result()` gives
an outcome, tallied by the success flag; an exception appends the submitted
space's key to `failed_spaces`. -/
def observeSync (s : Space) (r : Option Outcome) : Nat × List String :=
  match r with
  | some o => if o.success then (1, []) else (0, [o.key])
  | none => (0, [s.key])

/-- The thread script's whole result loop over the completion-ordered
sequence of `(submitted space, completed result)` pairs. -/
def aggregateSync : List (Space × Option Outcome) → Nat × List String
  | [] => (0, [])
  | (s, r) :: rest =>
    let h := observeSync s r
    let t := aggregateSync rest
    (h.1 + t.1, h.2 ++ t.2)

/-- One iteration of the async script's result loop: an awaited outcome is
tallied by the success flag; an exception is only logged — neither counter
nor failure list is touched. -/
def observeAsync (r : Option Outcome) : Nat × List String :=
  match r with
  | some o => if o.success then (1, []) else (0, [o.key])
  | none => (0, [])

/-- The async script's whole result loop over the completion-ordered results. -/
def aggregateAsync : List (Option Outcome) → Nat × List String
  | [] => (0, [])
  | r :: rest =>
    let h := observeAsync r
    let t := aggregateAsync rest
    (h.1 + t.1, h.2 ++ t.2)

/-- `ConfluenceExporter.export_all_spaces` after discovery: filter the
inventory, return `(0, [])` when nothing is left to export (lines 201–203),
otherwise aggregate the completed tasks.  `results` is the
completion-ordered sequence of `(submitted space, task result)` pairs —
completion order is whatever order the pool finishes the submitted tasks,
so it is passed in rather than computed. -/
def exportAllSpacesSync (allSpaces : List Space) (includePersonal includeArchived : Bool)
    (specificSpaces : Option (List String))
    (results : List (Space × Option Outcome)) : Nat × List String :=
  if (filterSpaces allSpaces includePersonal includeArchived specificSpaces).isEmpty then (0, [])
  else aggregateSync results

/-- Exit code of `main` in the thread script: `return 0 if not failed else 1`. -/
def mainExitCode (summary : Nat × List String) : Nat :=
  if summary.2.isEmpty then 0 else 1

/-! ## Cache commit under concurrency

A successful task commits its cache entry in two source lines:
`self.export_cache[cache_key] = str(output_file)` (in-memory insert) and
`self._save_cache()` (persist the whole map to the cache file).  Neither
script takes a lock around the pair, so in the thread script the commit
sequences of two concurrently completing tasks may be scheduled in any
interleaved order.  The persist is not atomic there: `_save_cache` opens
the cache file with mode `'w'` (truncating it) and then runs
`json.dump(..., indent=2)` — with `indent` set this is the incremental
pure-Python encoder, preemptible between writes, so overlapping persists
can interleave bytes through independent file handles and a concurrent
insert can change the dict mid-iteration.  We therefore model only the
schedules themselves: the two steps of one commit, and which step orders
two concurrent commits can produce.  The asyncio script's commit contains
no `await`, so its event loop can only produce the two sequential
schedules. -/

/-- One step of a cache commit, as scheduled by the thread pool. -/
inductive CommitStep where
  | ins (k v : String)
  | persist
deriving DecidableEq

/-- The step sequence of one task's cache commit: insert, then persist. -/
def commitSeq (k v : String) : List CommitStep :=
  [.ins k v, .persist]

/-- Interleavings of two step sequences: each task's own order is
preserved, steps of the two tasks may alternate arbitrarily.  These are
exactly the schedules two concurrent committing threads can produce. -/
inductive Interleave : List CommitStep → List CommitStep → List CommitStep → Prop
  | nil : Interleave [] [] []
  | left {x : CommitStep} {xs ys zs : List CommitStep} :
      Interleave xs ys zs → Interleave (x :: xs) ys (x :: zs)
  | right {y : CommitStep} {xs ys zs : List CommitStep} :
      Interleave xs ys zs → Interleave xs (y :: ys) (y :: zs)

/-- A concrete overlapping schedule of two commits: both inserts run before
either persist. -/
def overlappingSchedule (kA vA kB vB : String) : List CommitStep :=
  [.ins kA vA, .ins kB vB, .persist, .persist]

/-! ## Concrete spaces used by witnesses and counterexamples -/

/-- Shared active space `A` of the spec's filtering example. -/
def spA : Space := ⟨"A", some "Alpha", "global", some "current"⟩

/-- Personal active space `B` of the spec's filtering example. -/
def spB : Space := ⟨"B", some "Beta", "personal", some "current"⟩

/-- Shared archived space `C` of the spec's filtering example. -/
def spC : Space := ⟨"C", some "Gamma", "global", some "archived"⟩

/-- A generic shared active space used for concrete download runs. -/
def spX : Space := ⟨"X", some "X Space", "global", some "current"⟩

/-- Response trace whose every entry is an HTTP 500 with an empty body:
three attempts all receive a non-200 status. -/
def allFailTrace : List Attempt :=
  [.ok 500 none 0, .ok 500 none 0, .ok 500 none 0]

/-- Response declaring `content-length: 1000` but delivering only 500 bytes
before the stream ends. -/
def shortAttempt : Attempt := .ok 200 (some 1000) 500

/-! ## Helper lemmas -/

theorem cacheLookup_insert_self (c : List (String × String)) (k v : String) :
    cacheLookup (cacheInsert c k v) k = some v := by
  induction c with
  | nil => simp [cacheInsert, cacheLookup]
  | cons p rest ih =>
    by_cases h : p.1 = k
    · simp [cacheInsert, h, cacheLookup]
    · simp [cacheInsert, h, cacheLookup, ih]

theorem cacheLookup_insert_of_ne (c : List (String × String)) (k v k' : String)
    (h : k' ≠ k) : cacheLookup (cacheInsert c k v) k' = cacheLookup c k' := by
  have h2 : k ≠ k' := fun hh => h hh.symm
  induction c with
  | nil => simp [cacheInsert, cacheLookup, h2]
  | cons p rest ih =>
    by_cases hp : p.1 = k
    · subst hp
      simp [cacheInsert, cacheLookup, h2]
    · simp [cacheInsert, hp, cacheLookup, ih]

theorem natDigits_ne_nil (n : Nat) : natDigits n ≠ [] := by
  unfold natDigits
  split <;> simp

theorem digitChar_inj : ∀ d < 10, ∀ e < 10,
    Char.ofNat (48 + d) = Char.ofNat (48 + e) → d = e := by decide

theorem natDigits_inj : ∀ m n : Nat, natDigits m = natDigits n → m = n := by
  intro m
  induction m using Nat.strong_induction_on with
  | _ m ih =>
    intro n h
    by_cases hm : m < 10 <;> by_cases hn : n < 10
    · unfold natDigits at h
      rw [if_pos hm, if_pos hn] at h
      exact digitChar_inj m hm n hn (List.head_eq_of_cons_eq h)
    · exfalso
      unfold natDigits at h
      rw [if_pos hm, if_neg hn] at h
      have hlen := congrArg List.length h
      simp at hlen
      exact natDigits_ne_nil (n / 10) hlen
    · exfalso
      unfold natDigits at h
      rw [if_neg hm, if_pos hn] at h
      have hlen := congrArg List.length h
      simp at hlen
      exact natDigits_ne_nil (m / 10) hlen
    · unfold natDigits at h
      rw [if_neg hm, if_neg hn] at h
      have h2 := congrArg List.reverse h
      simp at h2
      have hdig : m % 10 = n % 10 :=
        digitChar_inj (m % 10) (Nat.mod_lt m (by norm_num)) (n % 10)
          (Nat.mod_lt n (by norm_num)) h2.1
      have hdiv : m / 10 = n / 10 :=
        ih (m / 10) (Nat.div_lt_self (by omega) (by omega)) (n / 10) h2.2
      omega

theorem cacheKey_bucket_eq (k : String) (t1 t2 : Nat)
    (h : cacheKey k t1 = cacheKey k t2) : t1 / 86400 = t2 / 86400 := by
  unfold cacheKey at h
  have hd := congrArg String.data h
  simp only [String.data_append] at hd
  have hlist := List.append_cancel_left hd
  have : t1 / (3600 * 24) = t2 / (3600 * 24) :=
    natDigits_inj _ _ (by simpa using hlist)
  simpa using this

theorem downloadLoop_fail_cons (a : Attempt) (rest : List Attempt) (rc : Nat)
    (h : attemptFails a = true) (hrc : rc + 1 < maxRetries) :
    downloadLoop (a :: rest) rc =
      ⟨(downloadLoop rest (rc + 1)).success, (downloadLoop rest (rc + 1)).attempts + 1,
        5 * 2 ^ (rc + 1) :: (downloadLoop rest (rc + 1)).waits⟩ := by
  simp [downloadLoop, h, hrc]

theorem downloadLoop_fail_exhausted (a : Attempt) (rest : List Attempt) (rc : Nat)
    (h : attemptFails a = true) (hrc : ¬ rc + 1 < maxRetries) :
    downloadLoop (a :: rest) rc = ⟨false, 1, []⟩ := by
  simp [downloadLoop, h, hrc]

theorem downloadLoop_ok_cons (a : Attempt) (rest : List Attempt) (rc : Nat)
    (h : attemptFails a = false) :
    downloadLoop (a :: rest) rc = ⟨true, 1, []⟩ := by
  simp [downloadLoop, h]

theorem downloadLoop_all_fail (trace : List Attempt)
    (h : ∀ a ∈ trace, attemptFails a = true) (rc : Nat) :
    (downloadLoop trace rc).success = false := by
  induction trace generalizing rc with
  | nil => rfl
  | cons a rest ih =>
    by_cases hrc : rc + 1 < maxRetries
    · rw [downloadLoop_fail_cons a rest rc (h a (by simp)) hrc]
      exact ih (fun x hx => h x (by simp [hx])) (rc + 1)
    · rw [downloadLoop_fail_exhausted a rest rc (h a (by simp)) hrc]

theorem asyncExportSpace_cacheHit (cache : List (String × String)) (now : Nat)
    (space : Space) (url : Option String) (trace : List Attempt) (dir : String)
    (p : String) (h : cacheLookup cache (cacheKey space.key now) = some p) :
    asyncExportSpace cache now space url trace dir =
      ⟨⟨true, space.key, some p⟩, cache, 0, 0, []⟩ := by
  simp only [asyncExportSpace, h]

theorem syncExportSpace_cacheHit (cache : List (String × String)) (now : Nat)
    (space : Space) (url : Option String) (trace : List Attempt) (dir : String)
    (p : String) (h : cacheLookup cache (cacheKey space.key now) = some p) :
    syncExportSpace cache now space url trace dir =
      ⟨⟨true, space.key, some p⟩, cache, 0, 0, []⟩ := by
  simp only [syncExportSpace, h]

theorem asyncExportSpace_miss (cache : List (String × String)) (now : Nat)
    (space : Space) (u : String) (trace : List Attempt) (dir : String)
    (hc : cacheLookup cache (cacheKey space.key now) = none) (hu : u ≠ "") :
    asyncExportSpace cache now space (some u) trace dir =
      (if (downloadLoop trace 0).success then
        ⟨⟨true, space.key, some (outputFileName dir space.key (space.name.getD space.key))⟩,
          cacheInsert cache (cacheKey space.key now)
            (outputFileName dir space.key (space.name.getD space.key)),
          1, (downloadLoop trace 0).attempts, (downloadLoop trace 0).waits⟩
      else ⟨⟨false, space.key, none⟩, cache, 1, (downloadLoop trace 0).attempts,
        (downloadLoop trace 0).waits⟩) := by
  simp only [asyncExportSpace, hc, if_neg hu]

theorem syncExportSpace_miss_response (cache : List (String × String)) (now : Nat)
    (space : Space) (u : String) (status : Nat) (declared : Option Nat) (delivered : Nat)
    (rest : List Attempt) (dir : String)
    (hc : cacheLookup cache (cacheKey space.key now) = none) (hu : u ≠ "") :
    syncExportSpace cache now space (some u) (.ok status declared delivered :: rest) dir =
      ⟨⟨true, space.key, some (outputFileName dir space.key (space.name.getD space.key))⟩,
        cacheInsert cache (cacheKey space.key now)
          (outputFileName dir space.key (space.name.getD space.key)), 1, 1, []⟩ := by
  simp only [syncExportSpace, hc, if_neg hu]

theorem aggregateSync_failed_mem (rs : List (Space × Option Outcome)) (x : String)
    (hx : x ∈ (aggregateSync rs).2) :
    ∃ p ∈ rs, x = p.1.key ∨ ∃ o, p.2 = some o ∧ x = o.key := by
  induction rs with
  | nil => simp [aggregateSync] at hx
  | cons p rest ih =>
    obtain ⟨s, r⟩ := p
    rw [aggregateSync] at hx
    rcases List.mem_append.mp hx with hh | ht
    · refine ⟨(s, r), by simp, ?_⟩
      match r with
      | none =>
        simp [observeSync] at hh
        exact Or.inl hh
      | some o =>
        by_cases hs : o.success
        · simp [observeSync, hs] at hh
        · simp [observeSync, hs] at hh
          exact Or.inr ⟨o, rfl, hh⟩
    · obtain ⟨q, hq, hk⟩ := ih ht
      exact ⟨q, by simp [hq], hk⟩

theorem pyIsAlnum_ascii (c : Char) (h : c.toNat < 128) : pyIsAlnum c = c.isAlphanum := by
  simp [pyIsAlnum, h]

theorem sanitizeChar_ascii (c : Char) (h : c.toNat < 128) :
    sanitizeChar c = if asciiClassChar c then c else '_' := by
  simp [sanitizeChar, asciiClassChar, pyIsAlnum_ascii c h]

/-! ## Claim theorems -/

/-- C1: in the async exporter, a download that fails transiently on attempts
1 and 2 and succeeds on attempt 3 yields a SUCCESS outcome with exactly 3
attempts, having waited `5*2 = 10` seconds before attempt 2 and `5*4 = 20`
seconds before attempt 3 (30 in total); a download failing on all 3 attempts
yields a FAILED outcome with no cache commit. -/
theorem retry_backoff_contract (cache : List (String × String)) (now : Nat) (space : Space)
    (u dir : String) (a1 a2 a3 : Attempt) (hu : u ≠ "")
    (hc : cacheLookup cache (cacheKey space.key now) = none)
    (h1 : attemptFails a1 = true) (h2 : attemptFails a2 = true) :
    (attemptFails a3 = false →
      (asyncExportSpace cache now space (some u) [a1, a2, a3] dir).outcome.success = true ∧
      (asyncExportSpace cache now space (some u) [a1, a2, a3] dir).downloadAttempts = 3 ∧
      (asyncExportSpace cache now space (some u) [a1, a2, a3] dir).waits = [10, 20] ∧
      (asyncExportSpace cache now space (some u) [a1, a2, a3] dir).waits.sum = 30) ∧
    (attemptFails a3 = true →
      (asyncExportSpace cache now space (some u) [a1, a2, a3] dir).outcome.success = false ∧
      (asyncExportSpace cache now space (some u) [a1, a2, a3] dir).downloadAttempts = 3 ∧
      (asyncExportSpace cache now space (some u) [a1, a2, a3] dir).cache = cache ∧
      (asyncExportSpace cache now space (some u) [a1, a2, a3] dir).outcome.path = none) := by
  have hm1 : (0 : Nat) + 1 < maxRetries := by norm_num [maxRetries]
  have hm2 : (1 : Nat) + 1 < maxRetries := by norm_num [maxRetries]
  rw [asyncExportSpace_miss cache now space u [a1, a2, a3] dir hc hu]
  constructor
  · intro h3
    have hloop : downloadLoop [a1, a2, a3] 0 = ⟨true, 3, [10, 20]⟩ := by
      rw [downloadLoop_fail_cons a1 [a2, a3] 0 h1 hm1,
        downloadLoop_fail_cons a2 [a3] 1 h2 hm2, downloadLoop_ok_cons a3 [] 2 h3]
      decide
    rw [hloop]
    simp
  · intro h3
    have hloop : downloadLoop [a1, a2, a3] 0 = ⟨false, 3, [10, 20]⟩ := by
      rw [downloadLoop_fail_cons a1 [a2, a3] 0 h1 hm1,
        downloadLoop_fail_cons a2 [a3] 1 h2 hm2,
        downloadLoop_fail_exhausted a3 [] 2 h3 (by norm_num [maxRetries])]
      decide
    rw [hloop]
    simp

/-- Witness for C1 at a concrete run: two network errors then a clean 200. -/
theorem retry_backoff_contract_witness :
    (asyncExportSpace [] 0 spX (some "http://u") [Attempt.err, Attempt.err, Attempt.ok 200 none 8]
      "out").outcome.success = true ∧
    (asyncExportSpace [] 0 spX (some "http://u") [Attempt.err, Attempt.err, Attempt.ok 200 none 8]
      "out").downloadAttempts = 3 ∧
    (asyncExportSpace [] 0 spX (some "http://u") [Attempt.err, Attempt.err, Attempt.ok 200 none 8]
      "out").waits.sum = 30 := by
  have h := retry_backoff_contract [] 0 spX "http://u" "out" Attempt.err Attempt.err
    (Attempt.ok 200 none 8) (by decide) rfl rfl rfl
  obtain ⟨hs, ha, hw, hsum⟩ := h.1 (by decide)
  exact ⟨hs, ha, hsum⟩

/-- C7: a WorkItem whose fingerprint is in the cache store yields an
immediate success outcome with the cached artifact path, an unchanged cache,
and zero network calls (no export request, no download attempt), in both the
async and the thread exporter. -/
theorem cache_hit_no_network (cache : List (String × String)) (now : Nat) (space : Space)
    (url : Option String) (trace : List Attempt) (dir : String) (p : String)
    (h : cacheLookup cache (cacheKey space.key now) = some p) :
    asyncExportSpace cache now space url trace dir =
      ⟨⟨true, space.key, some p⟩, cache, 0, 0, []⟩ ∧
    syncExportSpace cache now space url trace dir =
      ⟨⟨true, space.key, some p⟩, cache, 0, 0, []⟩ :=
  ⟨asyncExportSpace_cacheHit cache now space url trace dir p h,
    syncExportSpace_cacheHit cache now space url trace dir p h⟩

/-- Witness for C7 at a concrete cached item. -/
theorem cache_hit_no_network_witness :
    asyncExportSpace [(cacheKey "X" 0, "out/old.html.zip")] 0 spX (some "http://u")
        allFailTrace "out" =
      ⟨⟨true, "X", some "out/old.html.zip"⟩, [(cacheKey "X" 0, "out/old.html.zip")], 0, 0, []⟩ ∧
    syncExportSpace [(cacheKey "X" 0, "out/old.html.zip")] 0 spX (some "http://u")
        allFailTrace "out" =
      ⟨⟨true, "X", some "out/old.html.zip"⟩, [(cacheKey "X" 0, "out/old.html.zip")], 0, 0, []⟩ :=
  cache_hit_no_network [(cacheKey "X" 0, "out/old.html.zip")] 0 spX (some "http://u")
    allFailTrace "out" "out/old.html.zip" (by simp [cacheLookup, spX])

/-- C9: the cache fingerprint is the key, an underscore, and the decimal
rendering of `floor(now / 86400)`; two times in the same 86400-second bucket
give equal fingerprints and times in different buckets give distinct
fingerprints. -/
theorem fingerprint_bucket_characterization (k : String) (t1 t2 : Nat) :
    cacheKey k t1 = k ++ "_" ++ String.mk (natDigits (t1 / 86400)) ∧
    (t1 / 86400 = t2 / 86400 → cacheKey k t1 = cacheKey k t2) ∧
    (t1 / 86400 ≠ t2 / 86400 → cacheKey k t1 ≠ cacheKey k t2) := by
  refine ⟨by norm_num [cacheKey], ?_, ?_⟩
  · intro h
    unfold cacheKey
    norm_num [h]
  · intro h hk
    exact h (cacheKey_bucket_eq k t1 t2 hk)

/-- Witness for C9: time 0 and time 86400 are in different buckets and give
different fingerprints. -/
theorem fingerprint_bucket_witness : cacheKey "A" 0 ≠ cacheKey "A" 86400 :=
  (fingerprint_bucket_characterization "A" 0 86400).2.2 (by norm_num)

/-- C6: with a non-empty explicit allow-list, `export_all_spaces` selects
exactly the discovered spaces whose key is in the allow-list, in discovery
order, and the personal/archived inclusion flags are ignored entirely. -/
theorem allowlist_filter_exact (allSpaces : List Space) (keys : List String)
    (ip1 ia1 ip2 ia2 : Bool) (hk : keys ≠ []) :
    filterSpaces allSpaces ip1 ia1 (some keys)
        = allSpaces.filter (fun s => keys.contains s.key) ∧
    filterSpaces allSpaces ip1 ia1 (some keys) = filterSpaces allSpaces ip2 ia2 (some keys) := by
  have hne : keys.isEmpty = false := by
    cases keys with
    | nil => exact absurd rfl hk
    | cons a l => rfl
  constructor <;> simp [filterSpaces, hne]

/-- Witness for C6: the spec's inventory `[A(shared,active), B(personal,active),
C(shared,archived)]` with allow-list `[B, C]` and default flags yields exactly
`[B, C]` in discovery order. -/
theorem allowlist_filter_exact_witness :
    filterSpaces [spA, spB, spC] false false (some ["B", "C"]) = [spB, spC] := by
  rw [(allowlist_filter_exact [spA, spB, spC] ["B", "C"] false false true true (by decide)).1]
  decide

/-- C3: the thread exporter records a task that raised an unexpected internal
error as a failure under the submitted space's key, but the async exporter's
result loop only logs such an exception — the outcome is dropped, its run
summary for one raising task is `(0, [])`, `0 + 0 ≠ 1` breaks the claimed
`success_count + length(failed_keys) = M` invariant, and the process exit
code is 0 as if everything succeeded. -/
theorem async_aggregation_drops_raised_task :
    aggregateAsync [none] = (0, []) ∧
    (aggregateAsync [none]).1 + (aggregateAsync [none]).2.length ≠ 1 ∧
    mainExitCode (aggregateAsync [none]) = 0 ∧
    aggregateSync [(spX, none)] = (0, ["X"]) := by
  refine ⟨rfl, by decide, rfl, ?_⟩
  simp [aggregateSync, observeSync, spX]

/-- C2 counterexample: the thread exporter performs no completeness check —
a response declaring `content-length: 1000` that delivers only 500 bytes
before the stream ends is classified as a success, refuting the claim that
such an attempt is never classified as a success. -/
theorem short_transfer_sync_success :
    (syncExportSpace [] 0 spX (some "http://u") [shortAttempt] "out").outcome.success = true := by
  decide

/-- C2 amended: in the async exporter, a download attempt whose response
declares a positive total size and delivers fewer bytes is classified as an
attempt failure — retried (with backoff) while attempts remain, terminal
with no attempt success once the budget is exhausted — and a task all of
whose attempts are short ends FAILED with no cache commit; the thread
exporter classifies the same attempt as a success. -/
theorem short_transfer_async_attempt_failure (s n d rc : Nat) (rest : List Attempt)
    (hd : d < n) (cache : List (String × String)) (now : Nat) (space : Space) (u dir : String)
    (hu : u ≠ "") (hc : cacheLookup cache (cacheKey space.key now) = none) :
    attemptFails (.ok s (some n) d) = true ∧
    (rc + 1 < maxRetries →
      downloadLoop (.ok s (some n) d :: rest) rc =
        ⟨(downloadLoop rest (rc + 1)).success, (downloadLoop rest (rc + 1)).attempts + 1,
          5 * 2 ^ (rc + 1) :: (downloadLoop rest (rc + 1)).waits⟩) ∧
    (¬ rc + 1 < maxRetries → downloadLoop (.ok s (some n) d :: rest) rc = ⟨false, 1, []⟩) ∧
    ((asyncExportSpace cache now space (some u)
        [.ok s (some n) d, .ok s (some n) d, .ok s (some n) d] dir).outcome.success = false ∧
      (asyncExportSpace cache now space (some u)
        [.ok s (some n) d, .ok s (some n) d, .ok s (some n) d] dir).cache = cache) := by
  have hfail : attemptFails (.ok s (some n) d) = true := by
    simp [attemptFails]
    omega
  refine ⟨hfail, fun hrc => downloadLoop_fail_cons _ rest rc hfail hrc,
    fun hrc => downloadLoop_fail_exhausted _ rest rc hfail hrc, ?_⟩
  have hall : (downloadLoop [Attempt.ok s (some n) d, .ok s (some n) d, .ok s (some n) d]
      0).success = false := by
    refine downloadLoop_all_fail _ ?_ 0
    intro a ha
    simp at ha
    rw [ha]
    exact hfail
  rw [asyncExportSpace_miss cache now space u _ dir hc hu, if_neg (by rw [hall]; decide)]
  exact ⟨rfl, rfl⟩

/-- Witness for C2 at the claim's concrete numbers: `content-length: 1000`,
500 bytes delivered. -/
theorem short_transfer_async_attempt_failure_witness :
    attemptFails shortAttempt = true ∧
    (asyncExportSpace [] 0 spX (some "http://u")
      [shortAttempt, shortAttempt, shortAttempt] "out").outcome.success = false := by
  have h := short_transfer_async_attempt_failure 200 1000 500 0 [] (by norm_num) [] 0 spX
    "http://u" "out" (by decide) rfl
  exact ⟨h.1, h.2.2.2.1⟩

/-- C4 counterexample: with an empty cache and a remote that answers every
GET with an HTTP 500, the thread exporter returns a success outcome (it
never checks the status) while the async exporter returns a failure — the
two exporters do not produce the same ExportOutcome on identical inputs. -/
theorem sync_async_outcomes_differ :
    (syncExportSpace [] 0 spX (some "http://u") allFailTrace "out").outcome.success = true ∧
    (asyncExportSpace [] 0 spX (some "http://u") allFailTrace "out").outcome.success = false ∧
    (syncExportSpace [] 0 spX (some "http://u") allFailTrace "out").outcome ≠
      (asyncExportSpace [] 0 spX (some "http://u") allFailTrace "out").outcome := by
  refine ⟨by decide, by decide, by decide⟩

/-- C4 amended: the two exporters produce identical results only on the
paths where their logic coincides — a cache hit, a missing export URL, or a
first download response that is a complete HTTP 200; elsewhere (non-200
status, short transfer, or a transient error a retry could mask) they
diverge. -/
theorem sync_async_agree_on_clean_runs (cache : List (String × String)) (now : Nat)
    (space : Space) (u dir : String) (p : String) (a : Attempt) (rest : List Attempt) :
    (cacheLookup cache (cacheKey space.key now) = some p →
      syncExportSpace cache now space (some u) (a :: rest) dir
        = asyncExportSpace cache now space (some u) (a :: rest) dir) ∧
    (syncExportSpace cache now space none (a :: rest) dir
        = asyncExportSpace cache now space none (a :: rest) dir) ∧
    (cacheLookup cache (cacheKey space.key now) = none → u ≠ "" → attemptFails a = false →
      syncExportSpace cache now space (some u) (a :: rest) dir
        = asyncExportSpace cache now space (some u) (a :: rest) dir) := by
  refine ⟨?_, ?_, ?_⟩
  · intro h
    rw [syncExportSpace_cacheHit cache now space (some u) (a :: rest) dir p h,
      asyncExportSpace_cacheHit cache now space (some u) (a :: rest) dir p h]
  · cases h : cacheLookup cache (cacheKey space.key now) with
    | some q =>
      rw [syncExportSpace_cacheHit cache now space none (a :: rest) dir q h,
        asyncExportSpace_cacheHit cache now space none (a :: rest) dir q h]
    | none => simp only [syncExportSpace, asyncExportSpace, h]
  · intro hc hu hclean
    cases a with
    | err => exact absurd hclean (by simp [attemptFails])
    | ok s declared delivered =>
      rw [syncExportSpace_miss_response cache now space u s declared delivered rest dir hc hu,
        asyncExportSpace_miss cache now space u _ dir hc hu,
        downloadLoop_ok_cons _ rest 0 hclean]
      simp

/-- Witness for C4 on a clean first-attempt download shared by both
exporters. -/
theorem sync_async_agree_witness :
    syncExportSpace [] 0 spX (some "http://u") [Attempt.ok 200 (some 4) 4] "out"
      = asyncExportSpace [] 0 spX (some "http://u") [Attempt.ok 200 (some 4) 4] "out" :=
  (sync_async_agree_on_clean_runs [] 0 spX "http://u" "out" "unused"
    (Attempt.ok 200 (some 4) 4) []).2.2 rfl (by decide) (by decide)

/-- C5: the claimed serialization of the cache commit does not exist in the
code — neither script guards the commit pair (dict insert, then persist of
the whole map) with any lock, so two concurrently completing thread tasks
may interleave their commit sequences: the schedule with both inserts
before either persist is a legal interleaving of the two commit sequences
and is not one of the two serialized (mutually exclusive) orders the claim
requires.  Since the persist itself (truncating `open` plus incremental
`json.dump`) is preemptible, such overlapping schedules can corrupt the
persisted map. -/
theorem commit_not_serialized :
    Interleave (commitSeq "A_1" "out/A.html.zip") (commitSeq "B_1" "out/B.html.zip")
      (overlappingSchedule "A_1" "out/A.html.zip" "B_1" "out/B.html.zip") ∧
    overlappingSchedule "A_1" "out/A.html.zip" "B_1" "out/B.html.zip" ≠
      commitSeq "A_1" "out/A.html.zip" ++ commitSeq "B_1" "out/B.html.zip" ∧
    overlappingSchedule "A_1" "out/A.html.zip" "B_1" "out/B.html.zip" ≠
      commitSeq "B_1" "out/B.html.zip" ++ commitSeq "A_1" "out/A.html.zip" := by
  refine ⟨?_, by decide, by decide⟩
  exact .left (.right (.left (.right .nil)))

/-- C8 counterexample: Python's `str.isalnum` is Unicode-aware, so the space
name `Café` sanitizes to itself — the sanitized component contains `é`,
a character outside the claimed class `[A-Za-z0-9._- ]`. -/
theorem sanitize_keeps_unicode_alnum :
    (sanitizeName "Café").data.all asciiClassChar = false ∧
    sanitizeName "Café" = "Café" := by
  constructor <;> decide

/-- C8 amended: for space names made of ASCII characters, the sanitized
component contains no character outside `[A-Za-z0-9._- ]`, every disallowed
character is replaced one-for-one by an underscore (the length is
preserved), and the output filename is the key, an underscore, the
sanitized name and the `.html.zip` suffix under the output directory; for
non-ASCII names the character-class bound fails because Unicode
alphanumerics are kept. -/
theorem sanitize_ascii_class (name : String) (h : ∀ c ∈ name.data, c.toNat < 128) :
    (sanitizeName name).data = name.data.map (fun c => if asciiClassChar c then c else '_') ∧
    (sanitizeName name).data.all asciiClassChar = true ∧
    (sanitizeName name).length = name.length ∧
    (∀ dir key, outputFileName dir key name
      = dir ++ "/" ++ key ++ "_" ++ sanitizeName name ++ ".html.zip") := by
  have hmap : (sanitizeName name).data
      = name.data.map (fun c => if asciiClassChar c then c else '_') := by
    simp only [sanitizeName]
    exact List.map_congr_left (fun c hc => sanitizeChar_ascii c (h c hc))
  refine ⟨hmap, ?_, ?_, fun dir key => rfl⟩
  · rw [hmap, List.all_eq_true]
    intro x hx
    obtain ⟨c, hc, hcx⟩ := List.mem_map.mp hx
    by_cases hcc : asciiClassChar c = true
    · rw [← hcx, if_pos hcc]
      exact hcc
    · rw [← hcx, if_neg hcc]
      decide
  · have hlen : (sanitizeName name).data.length = name.data.length := by
      rw [hmap, List.length_map]
    exact hlen

/-- Witness for C8 at the spec's example name `My/Space: "2024"`. -/
theorem sanitize_ascii_class_witness :
    (sanitizeName "My/Space: \"2024\"").data.all asciiClassChar = true ∧
    (sanitizeName "My/Space: \"2024\"").length = ("My/Space: \"2024\"" : String).length := by
  have h := sanitize_ascii_class "My/Space: \"2024\"" (by decide)
  exact ⟨h.2.1, h.2.2.1⟩

/-- C10: allow-listed keys that are not discovered are silently skipped —
they are never part of the filtered work set and never appear in the run
summary's failure list; when no allow-listed key is discovered the run
returns `(0, [])` and the process exit code is 0. -/
theorem allowlist_missing_keys_skipped (allSpaces : List Space) (keys : List String)
    (ip ia : Bool) (results : List (Space × Option Outcome)) (k : String)
    (hperm : List.Perm (results.map Prod.fst) (filterSpaces allSpaces ip ia (some keys)))
    (hkeys : ∀ p ∈ results, ∀ o, p.2 = some o → o.key = p.1.key)
    (hk : k ∈ keys) (hnd : k ∉ allSpaces.map Space.key) :
    k ∉ (filterSpaces allSpaces ip ia (some keys)).map Space.key ∧
    k ∉ (exportAllSpacesSync allSpaces ip ia (some keys) results).2 ∧
    ((∀ k2 ∈ keys, k2 ∉ allSpaces.map Space.key) →
      exportAllSpacesSync allSpaces ip ia (some keys) results = (0, []) ∧
      mainExitCode (exportAllSpacesSync allSpaces ip ia (some keys) results) = 0) := by
  have hne : keys.isEmpty = false := by
    cases keys with
    | nil => simp at hk
    | cons a l => rfl
  have hfilter : filterSpaces allSpaces ip ia (some keys)
      = allSpaces.filter (fun s => keys.contains s.key) := by
    simp [filterSpaces, hne]
  have hsub : ∀ s ∈ filterSpaces allSpaces ip ia (some keys), s ∈ allSpaces := by
    intro s hs
    rw [hfilter] at hs
    exact (List.mem_filter.mp hs).1
  have hnotin : k ∉ (filterSpaces allSpaces ip ia (some keys)).map Space.key := by
    intro hmem
    obtain ⟨s, hs, hks⟩ := List.mem_map.mp hmem
    exact hnd (List.mem_map.mpr ⟨s, hsub s hs, hks⟩)
  refine ⟨hnotin, ?_, ?_⟩
  · intro hmem
    unfold exportAllSpacesSync at hmem
    by_cases hempty : (filterSpaces allSpaces ip ia (some keys)).isEmpty
    · rw [if_pos hempty] at hmem
      simp at hmem
    · rw [if_neg hempty] at hmem
      obtain ⟨p, hp, hcase⟩ := aggregateSync_failed_mem results k hmem
      have hpk : k = p.1.key := by
        rcases hcase with h1 | ⟨o, ho, h2⟩
        · exact h1
        · rw [h2, hkeys p hp o ho]
      have hp1 : p.1 ∈ filterSpaces allSpaces ip ia (some keys) :=
        hperm.mem_iff.mp (List.mem_map.mpr ⟨p, hp, rfl⟩)
      exact hnotin (List.mem_map.mpr ⟨p.1, hp1, hpk.symm⟩)
  · intro hnone
    have hempty : filterSpaces allSpaces ip ia (some keys) = [] := by
      rw [hfilter, List.filter_eq_nil_iff]
      intro s hs hkin
      have hmem : s.key ∈ keys := by simpa using hkin
      exact hnone s.key hmem (List.mem_map.mpr ⟨s, hs, rfl⟩)
    have : exportAllSpacesSync allSpaces ip ia (some keys) results = (0, []) := by
      unfold exportAllSpacesSync
      rw [if_pos (by rw [hempty]; rfl)]
    exact ⟨this, by rw [this]; rfl⟩

/-- Witness for C10: allow-list `[Z]` against an inventory containing only
`A` exports nothing, fails nothing, and exits 0. -/
theorem allowlist_missing_keys_skipped_witness :
    ("Z" ∉ (filterSpaces [spA] false false (some ["Z"])).map Space.key) ∧
    exportAllSpacesSync [spA] false false (some ["Z"]) [] = (0, []) ∧
    mainExitCode (exportAllSpacesSync [spA] false false (some ["Z"]) []) = 0 := by
  have h := allowlist_missing_keys_skipped [spA] ["Z"] false false [] "Z"
    (by decide) (by simp) (by decide) (by decide)
  exact ⟨h.1, (h.2.2 (by decide)).1, (h.2.2 (by decide)).2⟩

end ConfluenceExport
